import Mathlib

/-!
Verification of the CTA train-position ingestion pipeline
(`src/extract_data.py`): route-geometry snapping, feed parsing,
dedup-safe persistence, and the polling cycle.

Coordinates are modelled as rationals.  The source compares Euclidean
distances (`point.distance(line)`, `<` between candidate distances, and
`<= 0.0003` against the snap buffer); since all distances are
nonnegative, `d1 < d2` iff `d1^2 < d2^2` and `d <= tol` iff
`d^2 <= tol^2`, so the embedding carries squared distances throughout
and compares against the squared buffer.  This avoids irrational square
roots while preserving every branch decision of the source.
-/

set_option autoImplicit false

namespace CTA

/-- A planar point `(x, y)`; shapely points are built as `Point(lon, lat)`. -/
abbrev Pt : Type := ℚ × ℚ

/-- Dot product of two planar vectors. -/
def dotP (u v : Pt) : ℚ := u.1 * v.1 + u.2 * v.2

/-- Componentwise difference of two planar points. -/
def subP (u v : Pt) : Pt := (u.1 - v.1, u.2 - v.2)

/-- Squared Euclidean norm. -/
def sqNorm (u : Pt) : ℚ := dotP u u

/-- Clamp a parameter into `[0, 1]`. -/
def clamp01 (t : ℚ) : ℚ := max 0 (min 1 t)

/-- Parameter (in `[0,1]`) of the point of segment `[a, b]` nearest to `p`. -/
def segParam (p a b : Pt) : ℚ :=
  clamp01 (dotP (subP p a) (subP b a) / sqNorm (subP b a))

/-- The point of segment `[a, b]` nearest to `p` (the geometric content of
shapely's `line.interpolate(line.project(point))` restricted to one segment;
a degenerate segment collapses to its endpoint). -/
def closestOnSeg (p a b : Pt) : Pt :=
  if sqNorm (subP b a) = 0 then a
  else (a.1 + segParam p a b * (subP b a).1, a.2 + segParam p a b * (subP b a).2)

/-- Squared distance from `p` to the segment `s`. -/
def segDistSq (p : Pt) (s : Pt × Pt) : ℚ := sqNorm (subP p (closestOnSeg p s.1 s.2))

/-- A LineString is its list of vertices. -/
abbrev Line : Type := List Pt

/-- Consecutive vertex pairs: the segments of a LineString. -/
def segsOf (pts : Line) : List (Pt × Pt) := pts.zip pts.tail

/-- Minimum of a list of rationals (junk value `0` for the empty list,
which is only reached on degenerate geometry excluded by well-formedness). -/
def listMinD (xs : List ℚ) : ℚ :=
  match xs with
  | [] => 0
  | d :: ds => ds.foldl min d

/-- Squared distance from a point to a LineString: the minimum over its
segments (shapely's `point.distance(line)`, squared). -/
def lineDistSq (p : Pt) (pts : Line) : ℚ :=
  listMinD ((segsOf pts).map (segDistSq p))

/-- One step of the per-segment scan behind `nearestOnLine`: keep the
candidate nearest point of the strictly closer segment. -/
def nearStep (p : Pt) (acc : Pt × ℚ) (s2 : Pt × Pt) : Pt × ℚ :=
  if segDistSq p s2 < acc.2 then (closestOnSeg p s2.1 s2.2, segDistSq p s2) else acc

/-- The point of a LineString nearest to `p`: scan the segments keeping the
first one realising the minimal distance (shapely's
`line.interpolate(line.project(point))`). -/
def nearestOnLine (p : Pt) (pts : Line) : Pt :=
  match segsOf pts with
  | [] => p
  | s :: ss => (ss.foldl (nearStep p) (closestOnSeg p s.1 s.2, segDistSq p s)).1

/-- A route geometry as held in `route_geometries`: after unioning GeoJSON
features it is either a single `LineString` or a `MultiLineString`. -/
inductive Geometry where
  | line (pts : Line)
  | multi (lines : List Line)
deriving DecidableEq

/-- Shapely geometry truthiness: `if not geoms` is true exactly for an
empty geometry (no vertices / no components). -/
def Geometry.isEmpty : Geometry → Bool
  | .line pts => pts.isEmpty
  | .multi lines => lines.isEmpty

/-- The component LineStrings of a geometry. -/
def Geometry.components : Geometry → List Line
  | .line pts => [pts]
  | .multi lines => lines

/-- Well-formedness as guaranteed by shapely constructors: a LineString has
at least two vertices, and a MultiLineString has at least one component,
each with at least two vertices. -/
def Geometry.WF : Geometry → Prop
  | .line pts => 2 ≤ pts.length
  | .multi lines => lines ≠ [] ∧ ∀ pts ∈ lines, 2 ≤ pts.length

instance (g : Geometry) : Decidable g.WF := by
  cases g with
  | line pts => exact inferInstanceAs (Decidable (2 ≤ pts.length))
  | multi lines => exact inferInstanceAs (Decidable (_ ∧ _))

/-- The route-geometry index built at startup from the GeoJSON file
(`route_geometries.get`): `none` models both a missing key and a key whose
stored value is Python `None`. -/
abbrev GeoIndex : Type := String → Option Geometry

/-- The squared snap buffer: the source uses `buffer_distance = 0.0003`
degrees and compares plain distances against it; the embedding compares
squared distances against `0.0003 ^ 2`. -/
def snapTolSq : ℚ := (3 / 10000) ^ 2

/-- One step of the `for line in geoms.geoms` scan of `filter_and_snap`:
keep the strictly closer component (squared distances; `⊤` models the
initial `float("inf")`). -/
def scanStep (p : Pt) (acc : Option Line × WithTop ℚ) (l : Line) :
    Option Line × WithTop ℚ :=
  if ((lineDistSq p l : ℚ) : WithTop ℚ) < acc.2
  then (some l, ((lineDistSq p l : ℚ) : WithTop ℚ))
  else acc

/-- The full scan over the components of a MultiLineString, starting from
`closest_geom = None`, `min_distance = float("inf")`. -/
def closestScan (p : Pt) (lines : List Line) : Option Line × WithTop ℚ :=
  lines.foldl (scanStep p) (none, ⊤)

/-- Embedding of `filter_and_snap(route_code, lat, lon)`.  The index is a
parameter (the module-level `route_geometries` dict built at startup). -/
def filter_and_snap (idx : GeoIndex) (route_code : String) (lat lon : ℚ) : ℚ × ℚ :=
  match idx route_code.toLower with
  | none => (lat, lon)
  | some geoms =>
    if geoms.isEmpty then (lat, lon)
    else
      let point : Pt := (lon, lat)
      let scan : Option Line × WithTop ℚ :=
        match geoms with
        | .multi lines => closestScan point lines
        | .line pts => (some pts, ((lineDistSq point pts : ℚ) : WithTop ℚ))
      if scan.2 ≤ ((snapTolSq : ℚ) : WithTop ℚ) then (lat, lon)
      else
        match scan.1 with
        | none => (lat, lon)
        | some closest =>
          ((nearestOnLine point closest).2, (nearestOnLine point closest).1)

/-- Minimum squared distance from a point to a geometry: over the single
line, or over all components of a MultiLineString (`⊤` if none). -/
def Geometry.minDistSq (g : Geometry) (p : Pt) : WithTop ℚ :=
  match g with
  | .line pts => ((lineDistSq p pts : ℚ) : WithTop ℚ)
  | .multi lines =>
    (lines.map (fun l => ((lineDistSq p l : ℚ) : WithTop ℚ))).foldr min ⊤

/-! ## Feed parsing (`fetch_route_positions`) -/

/-- A raw JSON field of a train entry as the parser sees it: its Python
truthiness (`if t.get("lat")`), and the results of `float(...)` / `int(...)`
(`none` models a raised `ValueError` / `TypeError`). -/
structure RawField where
  truthy : Bool
  asFloat : Option ℚ
  asInt : Option ℤ
deriving DecidableEq

/-- One element of a `train` array of the feed; `none` fields model both a
missing key and a JSON null (`t.get(...)` returns `None` for either). -/
structure TrainEntry where
  rn : Option String
  nextStaNm : Option String
  lat : Option RawField
  lon : Option RawField
  heading : Option RawField
  isApp : Option String
  isDly : Option String
deriving DecidableEq

/-- One normalized dict appended to `out` by `fetch_route_positions`. -/
structure PosRecord where
  rn : Option String
  next_station : Option String
  lat : Option ℚ
  lon : Option ℚ
  heading : Option ℤ
  arriving_now : ℤ
  delayed : ℤ
deriving DecidableEq

/-- `float(t["lat"]) if t.get("lat") else None`: outer `none` is a raised
`ValueError` / `TypeError` (the whole entry is dropped), inner `none` is a
stored null. -/
def parseCoord : Option RawField → Option (Option ℚ)
  | none => some none
  | some f => if f.truthy then f.asFloat.map some else some none

/-- `int(t["heading"]) if t.get("heading") else None`, same convention. -/
def parseHeading : Option RawField → Option (Option ℤ)
  | none => some none
  | some f => if f.truthy then f.asInt.map some else some none

/-- The body of the per-train `try` block: parse the numeric fields, snap
when `if lat and lon:` holds (Python truthiness: `None` and `0.0` are both
falsy), and build the normalized record; `none` models a caught
`ValueError` / `TypeError` (the entry is skipped by `continue`). -/
def parseEntry (idx : GeoIndex) (route_code : String) (t : TrainEntry) :
    Option PosRecord :=
  match parseCoord t.lat, parseCoord t.lon, parseHeading t.heading with
  | some lat0, some lon0, some hd =>
    let c : Option ℚ × Option ℚ :=
      match lat0, lon0 with
      | some a, some b =>
        if a ≠ 0 ∧ b ≠ 0 then
          (some (filter_and_snap idx route_code a b).1,
           some (filter_and_snap idx route_code a b).2)
        else (lat0, lon0)
      | _, _ => (lat0, lon0)
    some
      { rn := t.rn
        next_station := t.nextStaNm
        lat := c.1
        lon := c.2
        heading := hd
        arriving_now := if t.isApp = some "1" then 1 else 0
        delayed := if t.isDly = some "1" then 1 else 0 }
  | _, _, _ => none

/-- One element of the `route` array: `block.get("train", []) or []`
(`none` models a missing key or a JSON null, both of which yield `[]`). -/
structure RouteBlock where
  train : Option (List TrainEntry)
deriving DecidableEq

/-- `block.get("train", []) or []`. -/
def blockTrains (b : RouteBlock) : List TrainEntry := b.train.getD []

/-- A decoded feed response after `r.json()`: whether the declared
content type contains "json", the `ctatt` status block, and the `route`
array (`ctatt.get("route", [])`). -/
structure FeedResponse where
  contentTypeHasJson : Bool
  errCd : Option String
  errNm : Option String
  route : List RouteBlock
deriving DecidableEq

/-- All train entries of a response, in iteration order of the two nested
loops. -/
def allTrains (resp : FeedResponse) : List TrainEntry :=
  (resp.route.map blockTrains).flatten

/-- Embedding of `fetch_route_positions` from `data = r.json()` on (the
network call and `raise_for_status` are modelled at the poller level):
content-type gate, `errCd not in (None, "0")` gate, then the nested parse
loops with per-entry failure isolation. -/
def fetch_route_positions (idx : GeoIndex) (route_code : String)
    (resp : FeedResponse) : List PosRecord :=
  if !resp.contentTypeHasJson then []
  else if resp.errCd ≠ none ∧ resp.errCd ≠ some "0" then []
  else (allTrains resp).filterMap (parseEntry idx route_code)

/-! ## Persistence (`insert_snapshot`, schema of `SCHEMA_SQL`) -/

/-- One stored row of a route table (the `id` autoincrement column is
omitted: it is never read and carries no content). -/
structure Row where
  ts_utc : String
  rn : Option String
  next_station : Option String
  lat : Option ℚ
  lon : Option ℚ
  heading : Option ℤ
  arriving_now : Option ℤ
  delayed : Option ℤ
deriving DecidableEq

/-- The persisted database: table name to stored rows, in insertion order. -/
abbrev Store : Type := String → List Row

/-- The values tuple built for one record by `insert_snapshot`. -/
def recToRow (ts_iso : String) (r : PosRecord) : Row :=
  { ts_utc := ts_iso
    rn := r.rn
    next_station := r.next_station
    lat := r.lat
    lon := r.lon
    heading := r.heading
    arriving_now := some r.arriving_now
    delayed := some r.delayed }

/-- Conflict under the unique index `idx_{table}_ts_rn` on `(ts_utc, rn)`.
SQLite semantics: NULLs are pairwise distinct in a unique index, so a row
with a NULL `rn` conflicts with nothing. -/
def uniqueConflict (a b : Row) : Bool :=
  a.ts_utc == b.ts_utc &&
    match a.rn, b.rn with
    | some x, some y => x == y
    | _, _ => false

/-- `INSERT OR IGNORE` of one values tuple: a row conflicting with an
already-stored row is silently dropped. -/
def insertOne (tbl : List Row) (row : Row) : List Row :=
  if tbl.any (fun r => uniqueConflict r row) then tbl else tbl ++ [row]

/-- `conn.executemany(sql, vals)`: the tuples are inserted in order, each
under `INSERT OR IGNORE`. -/
def insertRows (tbl : List Row) (ts_iso : String) (recs : List PosRecord) :
    List Row :=
  (recs.map (recToRow ts_iso)).foldl insertOne tbl

/-- Embedding of `insert_snapshot(conn, table, ts_iso, rows)`: early return
on an empty record list (no table is touched), otherwise a batch insert
into the named table only. -/
def insert_snapshot (st : Store) (table ts_iso : String)
    (rows : List PosRecord) : Store :=
  fun t =>
    if rows.isEmpty then st t
    else if t = table then insertRows (st table) ts_iso rows else st t

/-- A route table never holding two rows that conflict under the unique
index (the invariant the schema is meant to give). -/
def TableOK (tbl : List Row) : Prop :=
  List.Pairwise (fun a b => uniqueConflict a b = false) tbl

/-! ## The polling cycle (`main`) -/

/-- The fixed `ROUTES` mapping (route code, table name), in iteration
order. -/
def ROUTES : List (String × String) :=
  [("Red", "red"), ("Blue", "blue"), ("Brn", "brn"), ("G", "g"),
   ("Org", "org"), ("P", "p"), ("Pink", "pink"), ("Y", "y")]

/-- Outcome of the network call for one route this cycle: a decoded
response, or a raised `requests.RequestException`. -/
inductive FetchOutcome where
  | ok (resp : FeedResponse)
  | netErr

/-- The per-route `try` body of the main loop: on a network error the
exception is caught and logged and the store is untouched; otherwise the
fetched records are inserted into the route's table under the cycle
timestamp. -/
def cycleStep (idx : GeoIndex) (oracle : String → FetchOutcome)
    (ts_iso : String) (st : Store) (route : String × String) : Store :=
  match oracle route.1 with
  | .netErr => st
  | .ok resp =>
    insert_snapshot st route.2 ts_iso (fetch_route_positions idx route.1 resp)

/-- One cycle of the `while True` loop: `ts_iso` is captured once, before
any route is fetched, then every route of `ROUTES` is processed in order
(the network behaviour of the cycle is the `oracle`). -/
def runCycle (idx : GeoIndex) (oracle : String → FetchOutcome)
    (ts_iso : String) (st : Store) : Store :=
  ROUTES.foldl (cycleStep idx oracle ts_iso) st

/-! ## Concrete fixtures used to exercise the embedding -/

/-- A valid train entry with nonzero coordinates and a heading. -/
def entryValidA : TrainEntry :=
  { rn := some "1", nextStaNm := some "A"
    lat := some { truthy := true, asFloat := some 41, asInt := none }
    lon := some { truthy := true, asFloat := some (-87), asInt := none }
    heading := some { truthy := true, asFloat := none, asInt := some 90 }
    isApp := some "1", isDly := none }

/-- A malformed entry: the raw `lat` is truthy but `float()` raises. -/
def entryBadLat : TrainEntry :=
  { rn := some "2", nextStaNm := none
    lat := some { truthy := true, asFloat := none, asInt := none }
    lon := none, heading := none, isApp := none, isDly := none }

/-- A valid entry with both coordinates missing. -/
def entryNoCoords : TrainEntry :=
  { rn := some "3", nextStaNm := none, lat := none, lon := none
    heading := none, isApp := none, isDly := some "1" }

/-- An entry whose raw `lat` is the string "0": truthy, parses to `0.0`,
which Python then treats as falsy in `if lat and lon:`. -/
def entryZeroLat : TrainEntry :=
  { rn := some "4", nextStaNm := none
    lat := some { truthy := true, asFloat := some 0, asInt := none }
    lon := some { truthy := true, asFloat := some 5, asInt := none }
    heading := none, isApp := none, isDly := none }

/-- A feed response mixing the fixture entries over two route blocks. -/
def respMixed : FeedResponse :=
  { contentTypeHasJson := true, errCd := some "0", errNm := none
    route := [{ train := some [entryValidA, entryBadLat] },
              { train := some [entryNoCoords] }] }

/-- A single straight east-west segment through the origin. -/
def geomSeg : Geometry := Geometry.line [(0, 0), (1, 0)]

/-- An index holding `geomSeg` for every route. -/
def idxSeg : GeoIndex := fun _ => some geomSeg

/-- A record with every nullable field null. -/
def recNull : PosRecord :=
  { rn := none, next_station := none, lat := none, lon := none
    heading := none, arriving_now := 0, delayed := 0 }

/-- A record with a run number. -/
def recRun7 : PosRecord :=
  { rn := some "7", next_station := some "B", lat := some 41, lon := some (-87)
    heading := some 180, arriving_now := 1, delayed := 0 }

/-- A cycle in which every route's fetch raises a network error. -/
def oracleFailAll : String → FetchOutcome := fun _ => FetchOutcome.netErr

/-- A cycle in which the Red line's fetch raises a network error and the
Blue line's fetch succeeds with `respMixed`; every other route also
fails. -/
def oracleBlueOk : String → FetchOutcome :=
  fun s => if s = "Blue" then FetchOutcome.ok respMixed else FetchOutcome.netErr

/-- A store holding one row (under any table name). -/
def stOne : Store := fun _ => [recToRow "t0" recRun7]

/-! ## Helper lemmas: folded minima -/

theorem foldl_min_le_init {α : Type} [LinearOrder α] :
    ∀ (xs : List α) (a : α), xs.foldl min a ≤ a
  | [], _ => le_refl _
  | x :: xs, a => le_trans (foldl_min_le_init xs (min a x)) (min_le_left a x)

theorem foldl_min_le_mem {α : Type} [LinearOrder α] :
    ∀ (xs : List α) (a x : α), x ∈ xs → xs.foldl min a ≤ x := by
  intro xs
  induction xs with
  | nil => intro a x hx; cases hx
  | cons y ys ih =>
    intro a x hx
    rcases List.mem_cons.mp hx with rfl | hx
    · exact le_trans (foldl_min_le_init ys (min a x)) (min_le_right a x)
    · exact ih (min a y) x hx

theorem le_foldl_min {α : Type} [LinearOrder α] :
    ∀ (xs : List α) (a c : α), c ≤ a → (∀ x ∈ xs, c ≤ x) → c ≤ xs.foldl min a := by
  intro xs
  induction xs with
  | nil => intro a c ha _; exact ha
  | cons y ys ih =>
    intro a c ha hxs
    exact ih (min a y) c (le_min ha (hxs y (List.mem_cons_self y ys)))
      (fun x hx => hxs x (List.mem_cons_of_mem y hx))

theorem foldr_min_le_mem {α : Type} [LinearOrder α] :
    ∀ (xs : List α) (i x : α), x ∈ xs → xs.foldr min i ≤ x := by
  intro xs
  induction xs with
  | nil => intro i x hx; cases hx
  | cons y ys ih =>
    intro i x hx
    rcases List.mem_cons.mp hx with rfl | hx
    · exact min_le_left _ _
    · exact le_trans (min_le_right _ _) (ih i x hx)

theorem listMinD_le_mem (xs : List ℚ) (x : ℚ) (hx : x ∈ xs) : listMinD xs ≤ x := by
  cases xs with
  | nil => cases hx
  | cons d ds =>
    rcases List.mem_cons.mp hx with rfl | hx
    · exact foldl_min_le_init ds x
    · exact foldl_min_le_mem ds d x hx

theorem listMinD_nonneg (xs : List ℚ) (h : ∀ x ∈ xs, 0 ≤ x) : 0 ≤ listMinD xs := by
  cases xs with
  | nil => exact le_refl 0
  | cons d ds =>
    exact le_foldl_min ds d 0 (h d (List.mem_cons_self d ds))
      (fun x hx => h x (List.mem_cons_of_mem d hx))

/-! ## Helper lemmas: segment and line distances -/

theorem sqNorm_nonneg (u : Pt) : 0 ≤ sqNorm u :=
  add_nonneg (mul_self_nonneg u.1) (mul_self_nonneg u.2)

theorem segDistSq_nonneg (p : Pt) (s : Pt × Pt) : 0 ≤ segDistSq p s :=
  sqNorm_nonneg _

theorem lineDistSq_nonneg (p : Pt) (pts : Line) : 0 ≤ lineDistSq p pts := by
  refine listMinD_nonneg _ (fun x hx => ?_)
  rcases List.mem_map.mp hx with ⟨s, _, rfl⟩
  exact segDistSq_nonneg p s

theorem lineDistSq_le_seg (p : Pt) (pts : Line) (s : Pt × Pt) (hs : s ∈ segsOf pts) :
    lineDistSq p pts ≤ segDistSq p s :=
  listMinD_le_mem _ _ (List.mem_map.mpr ⟨s, hs, rfl⟩)

theorem clamp01_nonneg (t : ℚ) : 0 ≤ clamp01 t := le_max_left 0 _

theorem clamp01_le_one (t : ℚ) : clamp01 t ≤ 1 :=
  max_le zero_le_one (min_le_left 1 t)

theorem clamp01_eq_self {t : ℚ} (h0 : 0 ≤ t) (h1 : t ≤ 1) : clamp01 t = t := by
  unfold clamp01
  rw [min_eq_right h1, max_eq_right h0]

theorem closestOnSeg_of_den_eq {a b : Pt} (p : Pt) (hden : sqNorm (subP b a) = 0) :
    closestOnSeg p a b = a := by
  unfold closestOnSeg
  rw [if_pos hden]

theorem closestOnSeg_of_den_ne {a b : Pt} (p : Pt) (hden : sqNorm (subP b a) ≠ 0) :
    closestOnSeg p a b =
      (a.1 + segParam p a b * (subP b a).1, a.2 + segParam p a b * (subP b a).2) := by
  unfold closestOnSeg
  rw [if_neg hden]

theorem segParam_closestOnSeg (p a b : Pt) (hden : sqNorm (subP b a) ≠ 0) :
    segParam (closestOnSeg p a b) a b = segParam p a b := by
  rw [closestOnSeg_of_den_ne p hden]
  obtain ⟨t, ht⟩ : ∃ t, segParam p a b = t := ⟨_, rfl⟩
  have h0 : 0 ≤ t := by rw [← ht]; exact clamp01_nonneg _
  have h1 : t ≤ 1 := by rw [← ht]; exact clamp01_le_one _
  rw [ht]
  unfold segParam
  have hdot :
      dotP (subP (a.1 + t * (subP b a).1, a.2 + t * (subP b a).2) a) (subP b a)
        = t * sqNorm (subP b a) := by
    simp only [dotP, subP, sqNorm]
    ring
  rw [hdot, mul_div_assoc, div_self hden, mul_one]
  exact clamp01_eq_self h0 h1

theorem closestOnSeg_idem (p a b : Pt) :
    closestOnSeg (closestOnSeg p a b) a b = closestOnSeg p a b := by
  by_cases hden : sqNorm (subP b a) = 0
  · rw [closestOnSeg_of_den_eq p hden, closestOnSeg_of_den_eq a hden]
  · rw [closestOnSeg_of_den_ne (closestOnSeg p a b) hden, segParam_closestOnSeg p a b hden,
      ← closestOnSeg_of_den_ne p hden]

theorem segDistSq_closestOnSeg (p a b : Pt) :
    segDistSq (closestOnSeg p a b) (a, b) = 0 := by
  unfold segDistSq
  rw [closestOnSeg_idem p a b]
  simp [subP, sqNorm, dotP]

/-! ## Helper lemmas: nearest point on a LineString -/

theorem segsOf_cons_cons (a b : Pt) (rest : List Pt) :
    segsOf (a :: b :: rest) = (a, b) :: segsOf (b :: rest) := rfl

theorem nearFold_cases (p : Pt) :
    ∀ (ss : List (Pt × Pt)) (acc : Pt × ℚ),
      ss.foldl (nearStep p) acc = acc ∨
      ∃ s ∈ ss, ss.foldl (nearStep p) acc = (closestOnSeg p s.1 s.2, segDistSq p s) := by
  intro ss
  induction ss with
  | nil => intro acc; left; rfl
  | cons s2 ss ih =>
    intro acc
    have hstep : (s2 :: ss).foldl (nearStep p) acc = ss.foldl (nearStep p) (nearStep p acc s2) :=
      rfl
    rcases ih (nearStep p acc s2) with heq | ⟨s, hs, heq⟩
    · rw [hstep, heq]
      unfold nearStep
      by_cases hlt : segDistSq p s2 < acc.2
      · right
        exact ⟨s2, List.mem_cons_self s2 ss, by rw [if_pos hlt]⟩
      · left
        rw [if_neg hlt]
    · right
      exact ⟨s, List.mem_cons_of_mem s2 hs, by rw [hstep, heq]⟩

theorem nearestOnLine_eq_closest (p : Pt) (pts : Line) (h2 : 2 ≤ pts.length) :
    ∃ s ∈ segsOf pts, nearestOnLine p pts = closestOnSeg p s.1 s.2 := by
  match pts, h2 with
  | a :: b :: rest, _ =>
    have hnl : nearestOnLine p (a :: b :: rest)
        = ((segsOf (b :: rest)).foldl (nearStep p)
            (closestOnSeg p a b, segDistSq p (a, b))).1 := rfl
    rcases nearFold_cases p (segsOf (b :: rest)) (closestOnSeg p a b, segDistSq p (a, b)) with
      heq | ⟨s, hs, heq⟩
    · exact ⟨(a, b), List.mem_cons_self _ _, by rw [hnl, heq]⟩
    · refine ⟨s, ?_, by rw [hnl, heq]⟩
      rw [segsOf_cons_cons]
      exact List.mem_cons_of_mem _ hs

theorem nearestOnLine_on_line (p : Pt) (pts : Line) (h2 : 2 ≤ pts.length) :
    lineDistSq (nearestOnLine p pts) pts = 0 := by
  obtain ⟨s, hs, heq⟩ := nearestOnLine_eq_closest p pts h2
  refine le_antisymm ?_ (lineDistSq_nonneg _ _)
  rw [heq]
  calc lineDistSq (closestOnSeg p s.1 s.2) pts
      ≤ segDistSq (closestOnSeg p s.1 s.2) s := lineDistSq_le_seg _ _ _ hs
    _ = 0 := segDistSq_closestOnSeg p s.1 s.2

/-! ## Helper lemmas: the component scan of `filter_and_snap` -/

theorem scanStep_apply (p : Pt) (c : Option Line) (m : WithTop ℚ) (l : Line) :
    scanStep p (c, m) l =
      if ((lineDistSq p l : ℚ) : WithTop ℚ) < m
      then (some l, ((lineDistSq p l : ℚ) : WithTop ℚ))
      else (c, m) := rfl

theorem scan_snd (p : Pt) :
    ∀ (L : List Line) (c : Option Line) (m : WithTop ℚ),
      (L.foldl (scanStep p) (c, m)).2
        = min m ((L.map (fun l => ((lineDistSq p l : ℚ) : WithTop ℚ))).foldr min ⊤) := by
  intro L
  induction L with
  | nil =>
    intro c m
    simp
  | cons l L ih =>
    intro c m
    have hstep : ((l :: L).foldl (scanStep p) (c, m))
        = L.foldl (scanStep p) (scanStep p (c, m) l) := rfl
    rw [hstep, scanStep_apply]
    by_cases hlt : ((lineDistSq p l : ℚ) : WithTop ℚ) < m
    · rw [if_pos hlt, ih]
      have hle : min ((lineDistSq p l : ℚ) : WithTop ℚ)
          ((L.map (fun l => ((lineDistSq p l : ℚ) : WithTop ℚ))).foldr min ⊤) ≤ m :=
        le_trans (min_le_left _ _) (le_of_lt hlt)
      simp only [List.map_cons, List.foldr_cons]
      rw [min_eq_right hle]
    · rw [if_neg hlt, ih]
      simp only [List.map_cons, List.foldr_cons]
      rw [← min_assoc, min_eq_left (not_lt.mp hlt)]

theorem scan_achieves (p : Pt) :
    ∀ (L : List Line) (c : Option Line) (m : WithTop ℚ),
      L.foldl (scanStep p) (c, m) = (c, m) ∨
      ∃ l ∈ L, L.foldl (scanStep p) (c, m)
        = (some l, ((lineDistSq p l : ℚ) : WithTop ℚ)) := by
  intro L
  induction L with
  | nil => intro c m; left; rfl
  | cons l L ih =>
    intro c m
    have hstep : ((l :: L).foldl (scanStep p) (c, m))
        = L.foldl (scanStep p) (scanStep p (c, m) l) := rfl
    rw [hstep, scanStep_apply]
    by_cases hlt : ((lineDistSq p l : ℚ) : WithTop ℚ) < m
    · rw [if_pos hlt]
      rcases ih (some l) ((lineDistSq p l : ℚ) : WithTop ℚ) with heq | ⟨l2, hl2, heq⟩
      · right; exact ⟨l, List.mem_cons_self l L, heq⟩
      · right; exact ⟨l2, List.mem_cons_of_mem l hl2, heq⟩
    · rw [if_neg hlt]
      rcases ih c m with heq | ⟨l2, hl2, heq⟩
      · left; exact heq
      · right; exact ⟨l2, List.mem_cons_of_mem l hl2, heq⟩

theorem closestScan_snd (p : Pt) (L : List Line) :
    (closestScan p L).2 = (Geometry.multi L).minDistSq p := by
  unfold closestScan Geometry.minDistSq
  rw [scan_snd]
  exact min_eq_right le_top

theorem closestScan_spec (p : Pt) (L : List Line) (hL : L ≠ []) :
    ∃ l ∈ L, closestScan p L = (some l, ((lineDistSq p l : ℚ) : WithTop ℚ)) := by
  rcases scan_achieves p L none ⊤ with heq | h
  · exfalso
    cases L with
    | nil => exact hL rfl
    | cons l L2 =>
      have htop : (closestScan p (l :: L2)).2 = ⊤ := by
        unfold closestScan
        rw [heq]
      have hle : (closestScan p (l :: L2)).2 ≤ ((lineDistSq p l : ℚ) : WithTop ℚ) := by
        rw [closestScan_snd]
        unfold Geometry.minDistSq
        exact foldr_min_le_mem _ _ _
          (List.mem_map.mpr ⟨l, List.mem_cons_self l L2, rfl⟩)
      rw [htop] at hle
      exact absurd (lt_of_le_of_lt hle (WithTop.coe_lt_top _)) (lt_irrefl ⊤)
  · exact h

theorem minDistSq_multi_le (p : Pt) (L : List Line) (l : Line) (hl : l ∈ L) :
    (Geometry.multi L).minDistSq p ≤ ((lineDistSq p l : ℚ) : WithTop ℚ) := by
  unfold Geometry.minDistSq
  exact foldr_min_le_mem _ _ _ (List.mem_map.mpr ⟨l, hl, rfl⟩)

/-! ## Helper lemmas: branches of `filter_and_snap` -/

theorem filter_and_snap_line (idx : GeoIndex) (rt : String) (pts : Line) (lat lon : ℚ)
    (hg : idx rt.toLower = some (.line pts)) (hne : pts ≠ []) :
    filter_and_snap idx rt lat lon =
      if ((lineDistSq (lon, lat) pts : ℚ) : WithTop ℚ) ≤ ((snapTolSq : ℚ) : WithTop ℚ)
      then (lat, lon)
      else ((nearestOnLine (lon, lat) pts).2, (nearestOnLine (lon, lat) pts).1) := by
  have hemp : (Geometry.line pts).isEmpty = false := by
    unfold Geometry.isEmpty
    cases pts with
    | nil => exact absurd rfl hne
    | cons a tl => rfl
  unfold filter_and_snap
  rw [hg]
  simp only [hemp, Bool.false_eq_true, if_false]

theorem filter_and_snap_multi (idx : GeoIndex) (rt : String) (lines : List Line) (lat lon : ℚ)
    (hg : idx rt.toLower = some (.multi lines)) (hne : lines ≠ []) :
    filter_and_snap idx rt lat lon =
      if (closestScan (lon, lat) lines).2 ≤ ((snapTolSq : ℚ) : WithTop ℚ)
      then (lat, lon)
      else
        match (closestScan (lon, lat) lines).1 with
        | none => (lat, lon)
        | some closest =>
          ((nearestOnLine (lon, lat) closest).2, (nearestOnLine (lon, lat) closest).1) := by
  have hemp : (Geometry.multi lines).isEmpty = false := by
    unfold Geometry.isEmpty
    cases lines with
    | nil => exact absurd rfl hne
    | cons a tl => rfl
  unfold filter_and_snap
  rw [hg]
  simp only [hemp, Bool.false_eq_true, if_false]

/-! ## Claim theorems: snapping -/

/-- C9: if the route identifier has no known geometry in the index,
`filter_and_snap` returns exactly the input coordinate unchanged. -/
theorem filter_and_snap_no_geometry (idx : GeoIndex) (rt : String) (lat lon : ℚ)
    (hg : idx rt.toLower = none) :
    filter_and_snap idx rt lat lon = (lat, lon) := by
  unfold filter_and_snap
  rw [hg]

theorem filter_and_snap_no_geometry_witness :
    (fun (_ : String) => (none : Option Geometry)) ("red".toLower) = none ∧
    filter_and_snap (fun _ => none) "red" 3 4 = (3, 4) :=
  ⟨rfl, filter_and_snap_no_geometry (fun _ => none) "red" 3 4 rfl⟩

/-- C3: for a route with a known (well-formed) geometry, an input
coordinate whose minimum squared distance to the geometry is within the
squared snap tolerance is returned unchanged. -/
theorem filter_and_snap_within_tol (idx : GeoIndex) (rt : String) (g : Geometry)
    (lat lon : ℚ) (hg : idx rt.toLower = some g) (hwf : g.WF)
    (hnear : g.minDistSq (lon, lat) ≤ ((snapTolSq : ℚ) : WithTop ℚ)) :
    filter_and_snap idx rt lat lon = (lat, lon) := by
  cases g with
  | line pts =>
    have hlen : 2 ≤ pts.length := hwf
    have hne : pts ≠ [] := List.ne_nil_of_length_pos (lt_of_lt_of_le (by norm_num) hlen)
    rw [filter_and_snap_line idx rt pts lat lon hg hne]
    unfold Geometry.minDistSq at hnear
    rw [if_pos hnear]
  | multi lines =>
    obtain ⟨hne, _⟩ := hwf
    rw [filter_and_snap_multi idx rt lines lat lon hg hne]
    rw [if_pos (by rw [closestScan_snd]; exact hnear)]

theorem filter_and_snap_within_tol_witness :
    (fun (_ : String) => some (Geometry.line [(0, 0), (1, 0)])) ("red".toLower)
      = some (Geometry.line [(0, 0), (1, 0)]) ∧
    (Geometry.line [(0, 0), (1, 0)]).WF ∧
    (Geometry.line [(0, 0), (1, 0)]).minDistSq ((1 : ℚ)/2, 0)
      ≤ ((snapTolSq : ℚ) : WithTop ℚ) ∧
    filter_and_snap (fun _ => some (Geometry.line [(0, 0), (1, 0)])) "red" 0 (1/2)
      = (0, 1/2) :=
  ⟨rfl, by decide!, by decide!,
    filter_and_snap_within_tol (fun _ => some (Geometry.line [(0, 0), (1, 0)])) "red"
      (Geometry.line [(0, 0), (1, 0)]) 0 (1/2) rfl (by decide!) (by decide!)⟩

/-- C4: for a route with a known (well-formed) geometry and an input
coordinate strictly outside the snap tolerance, `filter_and_snap` returns
the nearest-point projection onto a component realising the minimum
distance over all components, and the returned coordinate lies on that
component (its squared distance to it is zero). -/
theorem filter_and_snap_outside_tol (idx : GeoIndex) (rt : String) (g : Geometry)
    (lat lon : ℚ) (hg : idx rt.toLower = some g) (hwf : g.WF)
    (hfar : ((snapTolSq : ℚ) : WithTop ℚ) < g.minDistSq (lon, lat)) :
    ∃ l ∈ g.components,
      (∀ l2 ∈ g.components, lineDistSq (lon, lat) l ≤ lineDistSq (lon, lat) l2) ∧
      filter_and_snap idx rt lat lon
        = ((nearestOnLine (lon, lat) l).2, (nearestOnLine (lon, lat) l).1) ∧
      lineDistSq (nearestOnLine (lon, lat) l) l = 0 := by
  cases g with
  | line pts =>
    have hlen : 2 ≤ pts.length := hwf
    have hne : pts ≠ [] := List.ne_nil_of_length_pos (lt_of_lt_of_le (by norm_num) hlen)
    refine ⟨pts, List.mem_cons_self pts [], fun l2 hl2 => ?_, ?_, ?_⟩
    · rcases List.mem_cons.mp hl2 with rfl | h
      · exact le_refl _
      · cases h
    · rw [filter_and_snap_line idx rt pts lat lon hg hne]
      unfold Geometry.minDistSq at hfar
      rw [if_neg (not_le.mpr hfar)]
    · exact nearestOnLine_on_line (lon, lat) pts hlen
  | multi lines =>
    obtain ⟨hne, hall⟩ := hwf
    obtain ⟨l, hl, hscan⟩ := closestScan_spec (lon, lat) lines hne
    refine ⟨l, hl, fun l2 hl2 => ?_, ?_, ?_⟩
    · have h1 : (closestScan (lon, lat) lines).2
          ≤ ((lineDistSq (lon, lat) l2 : ℚ) : WithTop ℚ) := by
        rw [closestScan_snd]
        exact minDistSq_multi_le (lon, lat) lines l2 hl2
      rw [hscan] at h1
      exact WithTop.coe_le_coe.mp h1
    · rw [filter_and_snap_multi idx rt lines lat lon hg hne]
      have hcond : ¬ (closestScan (lon, lat) lines).2 ≤ ((snapTolSq : ℚ) : WithTop ℚ) := by
        rw [closestScan_snd]
        exact not_le.mpr hfar
      rw [if_neg hcond, hscan]
    · exact nearestOnLine_on_line (lon, lat) l (hall l hl)

theorem filter_and_snap_outside_tol_witness :
    (fun (_ : String) => some (Geometry.multi [[(0, 10), (1, 10)], [(0, 0), (1, 0)]]))
        ("red".toLower)
      = some (Geometry.multi [[(0, 10), (1, 10)], [(0, 0), (1, 0)]]) ∧
    (Geometry.multi [[(0, 10), (1, 10)], [(0, 0), (1, 0)]]).WF ∧
    ((snapTolSq : ℚ) : WithTop ℚ)
      < (Geometry.multi [[(0, 10), (1, 10)], [(0, 0), (1, 0)]]).minDistSq
          ((1 : ℚ)/2, (1 : ℚ)/2) ∧
    ∃ l ∈ (Geometry.multi [[(0, 10), (1, 10)], [(0, 0), (1, 0)]]).components,
      (∀ l2 ∈ (Geometry.multi [[(0, 10), (1, 10)], [(0, 0), (1, 0)]]).components,
        lineDistSq ((1 : ℚ)/2, (1 : ℚ)/2) l ≤ lineDistSq ((1 : ℚ)/2, (1 : ℚ)/2) l2) ∧
      filter_and_snap (fun _ => some (Geometry.multi [[(0, 10), (1, 10)], [(0, 0), (1, 0)]]))
          "red" (1/2) (1/2)
        = ((nearestOnLine ((1 : ℚ)/2, (1 : ℚ)/2) l).2,
           (nearestOnLine ((1 : ℚ)/2, (1 : ℚ)/2) l).1) ∧
      lineDistSq (nearestOnLine ((1 : ℚ)/2, (1 : ℚ)/2) l) l = 0 :=
  ⟨rfl, by decide!, by decide!,
    filter_and_snap_outside_tol
      (fun _ => some (Geometry.multi [[(0, 10), (1, 10)], [(0, 0), (1, 0)]])) "red"
      (Geometry.multi [[(0, 10), (1, 10)], [(0, 0), (1, 0)]]) (1/2) (1/2)
      rfl (by decide!) (by decide!)⟩

/-! ## Claim theorems: feed parsing -/

/-- C8: a feed response whose status block carries a non-null, non-zero
error code makes `fetch_route_positions` return the empty list (totality
of the embedding is the no-exception guarantee; the log line is I/O and
not modelled). -/
theorem fetch_error_code_empty (idx : GeoIndex) (rt : String) (resp : FeedResponse)
    (c : String) (hc : resp.errCd = some c) (hnz : c ≠ "0") :
    fetch_route_positions idx rt resp = [] := by
  have hcond : resp.errCd ≠ none ∧ resp.errCd ≠ some "0" :=
    ⟨by simp [hc], by simp [hc, hnz]⟩
  unfold fetch_route_positions
  cases hj : resp.contentTypeHasJson
  · simp
  · simp [hcond]

theorem fetch_error_code_empty_witness :
    (FeedResponse.mk true (some "101") (some "error") []).errCd = some "101" ∧
    "101" ≠ "0" ∧
    fetch_route_positions (fun _ => none) "Red"
      (FeedResponse.mk true (some "101") (some "error") []) = [] :=
  ⟨rfl, by decide,
    fetch_error_code_empty (fun _ => none) "Red"
      (FeedResponse.mk true (some "101") (some "error") []) "101" rfl (by decide)⟩

/-- C7: a single train entry whose numeric fields fail to parse is dropped
and parsing continues; the result is exactly the normalized records of the
remaining entries, and the function is total (no exception escapes). -/
theorem fetch_drops_malformed (idx : GeoIndex) (rt : String) (resp : FeedResponse)
    (pre post : List TrainEntry) (bad : TrainEntry)
    (hjson : resp.contentTypeHasJson = true)
    (herr : resp.errCd = none ∨ resp.errCd = some "0")
    (hsplit : allTrains resp = pre ++ bad :: post)
    (hbad : parseEntry idx rt bad = none) :
    fetch_route_positions idx rt resp
      = pre.filterMap (parseEntry idx rt) ++ post.filterMap (parseEntry idx rt) := by
  have hcond : ¬ (resp.errCd ≠ none ∧ resp.errCd ≠ some "0") := by
    rcases herr with h | h <;> simp [h]
  unfold fetch_route_positions
  rw [hjson]
  simp only [Bool.not_true, Bool.false_eq_true, if_false]
  rw [if_neg hcond, hsplit, List.filterMap_append]
  simp [List.filterMap_cons, hbad]

theorem fetch_drops_malformed_witness :
    respMixed.contentTypeHasJson = true ∧
    (respMixed.errCd = none ∨ respMixed.errCd = some "0") ∧
    allTrains respMixed = [entryValidA] ++ entryBadLat :: [entryNoCoords] ∧
    parseEntry (fun _ => none) "Red" entryBadLat = none ∧
    fetch_route_positions (fun _ => none) "Red" respMixed
      = [entryValidA].filterMap (parseEntry (fun _ => none) "Red")
        ++ [entryNoCoords].filterMap (parseEntry (fun _ => none) "Red") :=
  ⟨rfl, Or.inr rfl, by decide!, by decide!,
    fetch_drops_malformed (fun _ => none) "Red" respMixed [entryValidA] [entryNoCoords]
      entryBadLat rfl (Or.inr rfl) (by decide!) (by decide!)⟩

/-- C1 (counterexample): an entry whose raw latitude is the string "0"
parses to the non-null coordinate `0.0`, yet Python's `if lat and lon:`
treats `0.0` as falsy: the record is yielded with the raw coordinates
even though the Snapper would have moved them. -/
theorem parse_zero_coord_not_snapped :
    parseCoord entryZeroLat.lat = some (some 0) ∧
    parseCoord entryZeroLat.lon = some (some 5) ∧
    filter_and_snap idxSeg "red" 0 5 ≠ (0, 5) ∧
    parseEntry idxSeg "red" entryZeroLat
      = some { rn := some "4", next_station := none, lat := some 0, lon := some 5,
               heading := none, arriving_now := 0, delayed := 0 } := by
  refine ⟨by decide!, by decide!, by decide!, by decide!⟩

/-- C1 (amended): in a successfully parsed entry, the Snapper is applied
exactly when both parsed coordinates are present and nonzero (`if lat and
lon:` under Python truthiness); when either coordinate is missing or
zero the record carries the parsed coordinates unchanged (null where
missing). -/
theorem parse_snap_condition (idx : GeoIndex) (rt : String) (t : TrainEntry)
    (r : PosRecord) (h : parseEntry idx rt t = some r) :
    (∀ a b : ℚ, parseCoord t.lat = some (some a) → parseCoord t.lon = some (some b) →
      a ≠ 0 → b ≠ 0 →
      r.lat = some (filter_and_snap idx rt a b).1 ∧
      r.lon = some (filter_and_snap idx rt a b).2) ∧
    (∀ lat0 lon0 : Option ℚ,
      parseCoord t.lat = some lat0 → parseCoord t.lon = some lon0 →
      (lat0 = none ∨ lat0 = some 0 ∨ lon0 = none ∨ lon0 = some 0) →
      r.lat = lat0 ∧ r.lon = lon0) := by
  unfold parseEntry at h
  cases hla : parseCoord t.lat with
  | none => rw [hla] at h; simp at h
  | some lat0 =>
    cases hlo : parseCoord t.lon with
    | none => rw [hla, hlo] at h; simp at h
    | some lon0 =>
      cases hhd : parseHeading t.heading with
      | none => rw [hla, hlo, hhd] at h; simp at h
      | some hd =>
        rw [hla, hlo, hhd] at h
        simp only [Option.some.injEq] at h
        constructor
        · intro a b hpa hpb ha hb
          obtain rfl : lat0 = some a := Option.some_injective _ hpa
          obtain rfl : lon0 = some b := Option.some_injective _ hpb
          rw [← h]
          simp [if_pos (And.intro ha hb)]
        · intro lat0' lon0' hpa hpb hzero
          obtain rfl : lat0 = lat0' := Option.some_injective _ hpa
          obtain rfl : lon0 = lon0' := Option.some_injective _ hpb
          rw [← h]
          rcases hzero with hz | hz | hz | hz
          · subst hz; cases lon0 <;> simp
          · subst hz; cases lon0 <;> simp
          · subst hz; cases lat0 <;> simp
          · subst hz; cases lat0 <;> simp

theorem parse_snap_condition_witness :
    parseEntry idxSeg "red" entryValidA
      = some { rn := some "1", next_station := some "A",
               lat := some (filter_and_snap idxSeg "red" 41 (-87)).1,
               lon := some (filter_and_snap idxSeg "red" 41 (-87)).2,
               heading := some 90, arriving_now := 1, delayed := 0 } ∧
    (∀ a b : ℚ,
      parseCoord entryValidA.lat = some (some a) →
      parseCoord entryValidA.lon = some (some b) →
      a ≠ 0 → b ≠ 0 →
      ({ rn := some "1", next_station := some "A",
         lat := some (filter_and_snap idxSeg "red" 41 (-87)).1,
         lon := some (filter_and_snap idxSeg "red" 41 (-87)).2,
         heading := some 90, arriving_now := 1, delayed := 0 } : PosRecord).lat
        = some (filter_and_snap idxSeg "red" a b).1 ∧
      ({ rn := some "1", next_station := some "A",
         lat := some (filter_and_snap idxSeg "red" 41 (-87)).1,
         lon := some (filter_and_snap idxSeg "red" 41 (-87)).2,
         heading := some 90, arriving_now := 1, delayed := 0 } : PosRecord).lon
        = some (filter_and_snap idxSeg "red" a b).2) :=
  ⟨by decide!,
    (parse_snap_condition idxSeg "red" entryValidA _ (by decide!)).1⟩

/-! ## Helper lemmas: the store -/

theorem insert_snapshot_other (st : Store) (tbl ts_iso : String) (recs : List PosRecord)
    (t : String) (h : t ≠ tbl) : insert_snapshot st tbl ts_iso recs t = st t := by
  unfold insert_snapshot
  cases recs with
  | nil => simp
  | cons r rs => simp [h]

theorem insert_snapshot_self_congr (st st2 : Store) (tbl ts_iso : String)
    (recs : List PosRecord) (h : st tbl = st2 tbl) :
    insert_snapshot st tbl ts_iso recs tbl = insert_snapshot st2 tbl ts_iso recs tbl := by
  unfold insert_snapshot
  rw [h]

theorem insert_snapshot_self (st : Store) (tbl ts_iso : String) (recs : List PosRecord)
    (hne : recs ≠ []) : insert_snapshot st tbl ts_iso recs tbl = insertRows (st tbl) ts_iso recs := by
  unfold insert_snapshot
  cases recs with
  | nil => exact absurd rfl hne
  | cons r rs => simp

theorem uniqueConflict_refl_of_rn (a : Row) (x : String) (hrn : a.rn = some x) :
    uniqueConflict a a = true := by
  unfold uniqueConflict
  rw [hrn]
  simp

theorem insertOne_idem (T : List Row) (row : Row) (hself : uniqueConflict row row = true) :
    insertOne (insertOne T row) row = insertOne T row := by
  unfold insertOne
  cases hany : T.any (fun r => uniqueConflict r row) with
  | true => simp [hany]
  | false =>
    simp only [hany, Bool.false_eq_true, if_false]
    have hany2 : (T ++ [row]).any (fun r => uniqueConflict r row) = true := by
      rw [List.any_append]
      simp [hself]
    simp [hany2]

theorem mem_insertOne (T : List Row) (row r : Row) (h : r ∈ insertOne T row) :
    r ∈ T ∨ r = row := by
  unfold insertOne at h
  split at h
  · exact Or.inl h
  · rcases List.mem_append.mp h with h2 | h2
    · exact Or.inl h2
    · exact Or.inr (List.mem_singleton.mp h2)

theorem mem_foldl_insertOne :
    ∀ (rows : List Row) (T : List Row) (r : Row),
      r ∈ rows.foldl insertOne T → r ∈ T ∨ r ∈ rows := by
  intro rows
  induction rows with
  | nil => intro T r h; exact Or.inl h
  | cons row rows ih =>
    intro T r h
    rcases ih (insertOne T row) r h with h2 | h2
    · rcases mem_insertOne T row r h2 with h3 | h3
      · exact Or.inl h3
      · exact Or.inr (h3 ▸ List.mem_cons_self row rows)
    · exact Or.inr (List.mem_cons_of_mem row h2)

theorem mem_insertRows (T : List Row) (ts_iso : String) (recs : List PosRecord) (r : Row)
    (h : r ∈ insertRows T ts_iso recs) : r ∈ T ∨ r.ts_utc = ts_iso := by
  rcases mem_foldl_insertOne _ T r h with h2 | h2
  · exact Or.inl h2
  · rcases List.mem_map.mp h2 with ⟨rec, _, rfl⟩
    exact Or.inr rfl

theorem mem_insert_snapshot (st : Store) (tbl ts_iso : String) (recs : List PosRecord)
    (t : String) (row : Row) (h : row ∈ insert_snapshot st tbl ts_iso recs t) :
    row ∈ st t ∨ row.ts_utc = ts_iso := by
  unfold insert_snapshot at h
  split at h
  · exact Or.inl h
  · split at h
    · rename_i ht
      subst ht
      rcases mem_insertRows _ _ _ _ h with h2 | h2
      · exact Or.inl h2
      · exact Or.inr h2
    · exact Or.inl h

theorem tableOK_insertOne (T : List Row) (row : Row) (hOK : TableOK T) :
    TableOK (insertOne T row) := by
  unfold insertOne
  cases hany : T.any (fun r => uniqueConflict r row) with
  | true => simpa using hOK
  | false =>
    simp only [Bool.false_eq_true, if_false]
    unfold TableOK
    rw [List.pairwise_append]
    refine ⟨hOK, List.pairwise_singleton _ _, ?_⟩
    intro a ha b hb
    rw [List.mem_singleton.mp hb]
    simpa using (List.any_eq_false.mp hany) a ha

theorem tableOK_foldl_insertOne :
    ∀ (rows : List Row) (T : List Row), TableOK T → TableOK (rows.foldl insertOne T) := by
  intro rows
  induction rows with
  | nil => intro T h; exact h
  | cons row rows ih => intro T h; exact ih (insertOne T row) (tableOK_insertOne T row h)

/-! ## Claim theorems: persistence -/

/-- C10: `insert_snapshot` with an empty record list leaves every table of
the store unchanged. -/
theorem insert_snapshot_empty_noop (st : Store) (table ts_iso : String) (t : String) :
    insert_snapshot st table ts_iso [] t = st t := rfl

/-- C2 (counterexample): inserting the same `(timestamp, run)` pair twice
with a NULL run number stores two rows: SQLite treats NULLs in a unique
index as pairwise distinct, so the two inserted rows both land and share
`(ts_utc, rn) = ("t0", NULL)`. -/
theorem insert_dup_null_rn_two_rows :
    (insert_snapshot (insert_snapshot (fun _ => []) "red" "t0" [recNull])
        "red" "t0" [recNull]) "red"
      = [recToRow "t0" recNull, recToRow "t0" recNull] := by decide!

/-- C2 (amended): for a record whose run number is non-null, inserting the
same `(timestamp, run)` twice leaves exactly the rows of a single insert,
and batch inserts preserve the invariant that no two rows of a table
conflict under the `(ts_utc, rn)` unique index. -/
theorem insert_snapshot_idempotent_unique (st : Store) (tbl ts_iso : String)
    (hok : ∀ t, TableOK (st t)) :
    (∀ (r : PosRecord) (x : String), r.rn = some x →
      insert_snapshot (insert_snapshot st tbl ts_iso [r]) tbl ts_iso [r]
        = insert_snapshot st tbl ts_iso [r]) ∧
    (∀ (recs : List PosRecord) (t : String),
      TableOK (insert_snapshot st tbl ts_iso recs t)) := by
  constructor
  · intro r x hrn
    funext t
    by_cases ht : t = tbl
    · subst ht
      have hself : uniqueConflict (recToRow ts_iso r) (recToRow ts_iso r) = true :=
        uniqueConflict_refl_of_rn _ x (by simp [recToRow, hrn])
      rw [insert_snapshot_self _ t ts_iso [r] (by simp),
        insert_snapshot_self st t ts_iso [r] (by simp)]
      show insertOne (insertOne (st t) (recToRow ts_iso r)) (recToRow ts_iso r)
        = insertOne (st t) (recToRow ts_iso r)
      exact insertOne_idem _ _ hself
    · rw [insert_snapshot_other _ tbl ts_iso [r] t ht,
        insert_snapshot_other st tbl ts_iso [r] t ht]
  · intro recs t
    unfold insert_snapshot
    split
    · exact hok t
    · split
      · exact tableOK_foldl_insertOne _ _ (hok tbl)
      · exact hok t

theorem insert_snapshot_idempotent_unique_witness :
    (∀ t, TableOK ((fun (_ : String) => ([] : List Row)) t)) ∧
    ((∀ (r : PosRecord) (x : String), r.rn = some x →
      insert_snapshot (insert_snapshot (fun _ => []) "red" "t0" [r]) "red" "t0" [r]
        = insert_snapshot (fun _ => []) "red" "t0" [r]) ∧
    (∀ (recs : List PosRecord) (t : String),
      TableOK (insert_snapshot (fun _ => []) "red" "t0" recs t))) :=
  ⟨fun _ => List.Pairwise.nil,
    insert_snapshot_idempotent_unique (fun _ => []) "red" "t0" (fun _ => List.Pairwise.nil)⟩

/-! ## Helper lemmas: the polling cycle -/

theorem cycleStep_other (idx : GeoIndex) (oracle : String → FetchOutcome) (ts_iso : String)
    (st : Store) (p : String × String) (t : String) (h : t ≠ p.2) :
    cycleStep idx oracle ts_iso st p t = st t := by
  unfold cycleStep
  cases oracle p.1 with
  | netErr => rfl
  | ok resp => exact insert_snapshot_other st p.2 ts_iso _ t h

theorem cycleStep_self_congr (idx : GeoIndex) (oracle : String → FetchOutcome)
    (ts_iso : String) (st st2 : Store) (p : String × String) (h : st p.2 = st2 p.2) :
    cycleStep idx oracle ts_iso st p p.2 = cycleStep idx oracle ts_iso st2 p p.2 := by
  unfold cycleStep
  cases oracle p.1 with
  | netErr => exact h
  | ok resp => exact insert_snapshot_self_congr st st2 p.2 ts_iso _ h

theorem foldl_cycle_untouched (idx : GeoIndex) (oracle : String → FetchOutcome)
    (ts_iso : String) :
    ∀ (L : List (String × String)) (st : Store) (t : String),
      t ∉ L.map Prod.snd →
      L.foldl (cycleStep idx oracle ts_iso) st t = st t := by
  intro L
  induction L with
  | nil => intro st t _; rfl
  | cons p L ih =>
    intro st t ht
    have ht2 : t ∉ L.map Prod.snd := fun h => ht (List.mem_cons_of_mem _ h)
    have htp : t ≠ p.2 := fun h => ht (h ▸ List.mem_cons_self _ _)
    calc (p :: L).foldl (cycleStep idx oracle ts_iso) st t
        = L.foldl (cycleStep idx oracle ts_iso) (cycleStep idx oracle ts_iso st p) t := rfl
      _ = cycleStep idx oracle ts_iso st p t := ih _ t ht2
      _ = st t := cycleStep_other idx oracle ts_iso st p t htp

theorem foldl_cycle_at (idx : GeoIndex) (oracle : String → FetchOutcome) (ts_iso : String) :
    ∀ (L : List (String × String)) (st : Store) (rt tbl : String),
      (L.map Prod.snd).Nodup → (rt, tbl) ∈ L →
      L.foldl (cycleStep idx oracle ts_iso) st tbl
        = cycleStep idx oracle ts_iso st (rt, tbl) tbl := by
  intro L
  induction L with
  | nil => intro st rt tbl _ hmem; cases hmem
  | cons p L ih =>
    intro st rt tbl hnd hmem
    have hnd2 : (L.map Prod.snd).Nodup := (List.nodup_cons.mp (by simpa using hnd)).2
    have hp2 : p.2 ∉ L.map Prod.snd := (List.nodup_cons.mp (by simpa using hnd)).1
    rcases List.mem_cons.mp hmem with heq | hmem2
    · have h2 : tbl ∉ L.map Prod.snd := by rw [← heq] at hp2; simpa using hp2
      calc (p :: L).foldl (cycleStep idx oracle ts_iso) st tbl
          = L.foldl (cycleStep idx oracle ts_iso) (cycleStep idx oracle ts_iso st p) tbl :=
            rfl
        _ = cycleStep idx oracle ts_iso st p tbl := foldl_cycle_untouched _ _ _ L _ tbl h2
        _ = cycleStep idx oracle ts_iso st (rt, tbl) tbl := by rw [← heq]
    · have htbl : tbl ∈ L.map Prod.snd := List.mem_map.mpr ⟨(rt, tbl), hmem2, rfl⟩
      have hne : tbl ≠ p.2 := fun h => hp2 (h ▸ htbl)
      calc (p :: L).foldl (cycleStep idx oracle ts_iso) st tbl
          = L.foldl (cycleStep idx oracle ts_iso) (cycleStep idx oracle ts_iso st p) tbl :=
            rfl
        _ = cycleStep idx oracle ts_iso (cycleStep idx oracle ts_iso st p) (rt, tbl) tbl :=
            ih _ rt tbl hnd2 hmem2
        _ = cycleStep idx oracle ts_iso st (rt, tbl) tbl :=
            cycleStep_self_congr idx oracle ts_iso _ st (rt, tbl)
              (cycleStep_other idx oracle ts_iso st p tbl hne)

theorem mem_cycleStep (idx : GeoIndex) (oracle : String → FetchOutcome) (ts_iso : String)
    (st : Store) (p : String × String) (t : String) (row : Row)
    (h : row ∈ cycleStep idx oracle ts_iso st p t) : row ∈ st t ∨ row.ts_utc = ts_iso := by
  unfold cycleStep at h
  cases ho : oracle p.1 with
  | netErr => rw [ho] at h; exact Or.inl h
  | ok resp => rw [ho] at h; exact mem_insert_snapshot st p.2 ts_iso _ t row h

theorem mem_foldl_cycle (idx : GeoIndex) (oracle : String → FetchOutcome) (ts_iso : String) :
    ∀ (L : List (String × String)) (st : Store) (t : String) (row : Row),
      row ∈ L.foldl (cycleStep idx oracle ts_iso) st t →
      row ∈ st t ∨ row.ts_utc = ts_iso := by
  intro L
  induction L with
  | nil => intro st t row h; exact Or.inl h
  | cons p L ih =>
    intro st t row h
    rcases ih (cycleStep idx oracle ts_iso st p) t row h with h2 | h2
    · exact mem_cycleStep idx oracle ts_iso st p t row h2
    · exact Or.inr h2

/-! ## Claim theorems: the polling cycle -/

/-- C6: the cycle timestamp is captured once, before any route of the
cycle is fetched (structurally: `runCycle` takes the one `ts_iso` fixed
on entry), and every row persisted during the cycle — in any table —
carries that one timestamp. -/
theorem cycle_single_timestamp (idx : GeoIndex) (oracle : String → FetchOutcome)
    (ts_iso : String) (st : Store) (t : String) (row : Row)
    (h : row ∈ runCycle idx oracle ts_iso st t) : row ∈ st t ∨ row.ts_utc = ts_iso :=
  mem_foldl_cycle idx oracle ts_iso ROUTES st t row h

theorem cycle_single_timestamp_witness :
    recToRow "t0" recRun7 ∈ runCycle (fun _ => none) oracleFailAll "t1" stOne "red" ∧
    (recToRow "t0" recRun7 ∈ stOne "red" ∨ (recToRow "t0" recRun7).ts_utc = "t1") :=
  ⟨by decide!,
    cycle_single_timestamp (fun _ => none) oracleFailAll "t1" stOne "red"
      (recToRow "t0" recRun7) (by decide!)⟩

/-- C5: a network failure while fetching one route does not abort the
cycle: any route whose fetch succeeds is still persisted, exactly as if
processed alone, into its own table, and every row it adds carries the
cycle's single captured timestamp. -/
theorem cycle_isolates_failures (idx : GeoIndex) (oracle : String → FetchOutcome)
    (ts_iso : String) (st : Store) (A : String × String) (rt tbl : String)
    (resp : FeedResponse) (_hA : A ∈ ROUTES) (_hAfail : oracle A.1 = FetchOutcome.netErr)
    (hmem : (rt, tbl) ∈ ROUTES) (hok : oracle rt = FetchOutcome.ok resp) :
    runCycle idx oracle ts_iso st tbl
      = insert_snapshot st tbl ts_iso (fetch_route_positions idx rt resp) tbl ∧
    ∀ row ∈ runCycle idx oracle ts_iso st tbl, row ∈ st tbl ∨ row.ts_utc = ts_iso := by
  constructor
  · have hnd : (ROUTES.map Prod.snd).Nodup := by decide
    rw [runCycle, foldl_cycle_at idx oracle ts_iso ROUTES st rt tbl hnd hmem]
    unfold cycleStep
    rw [hok]
  · intro row hrow
    exact mem_foldl_cycle idx oracle ts_iso ROUTES st tbl row hrow

theorem cycle_isolates_failures_witness :
    ("Red", "red") ∈ ROUTES ∧
    oracleBlueOk "Red" = FetchOutcome.netErr ∧
    ("Blue", "blue") ∈ ROUTES ∧
    oracleBlueOk "Blue" = FetchOutcome.ok respMixed ∧
    (runCycle (fun _ => none) oracleBlueOk "t1" (fun _ => []) "blue"
        = insert_snapshot (fun _ => []) "blue" "t1"
            (fetch_route_positions (fun _ => none) "Blue" respMixed) "blue" ∧
     ∀ row ∈ runCycle (fun _ => none) oracleBlueOk "t1" (fun _ => []) "blue",
       row ∈ (fun (_ : String) => ([] : List Row)) "blue" ∨ row.ts_utc = "t1") :=
  ⟨by decide, rfl, by decide, rfl,
    cycle_isolates_failures (fun _ => none) oracleBlueOk "t1" (fun _ => [])
      ("Red", "red") "Blue" "blue" respMixed (by decide) rfl (by decide) rfl⟩

end CTA
